import Mathlib

/-!
Verification of the planning core of `app.py` (Semantic Travel Booking Agent).

The single planning function of the repository, `plan_trip_enhanced`, queries
an RDF catalog through SPARQL and combines a cheapest flight, a date-flexible
hotel (with a nearby-city cascade) and a taxi into a `PlanningResult`.

Shallow embedding conventions:
* the RDF catalog is modelled as three lists of typed offer records
  (`Catalog`); a SPARQL query `SELECT ... WHERE {pattern} ORDER BY ASC(price)`
  is modelled as `List.filter` (exact-match on the literal filters of the
  pattern) followed by a stable sort on the price field
  (`List.insertionSort`), matching the row semantics of the query;
* calendar dates are modelled as integers (day numbers); `timedelta(days=n)`
  is integer addition; `float` hotel ratings are modelled as rationals, only
  their ordering is ever used;
* the travel-date argument `dep_date_str` of `plan_trip_enhanced` is modelled
  as `Option Int`: `some d` for a string that `datetime.fromisoformat` parses
  to the day `d`, `none` for an unparsable string; the `except:` default
  `datetime.now().date()` is the extra parameter `today`;
* the result dictionaries of the Python function have different key sets per
  status, so `PlanningResult` is an inductive with one constructor per shape:
  `{"status":"NoFlights","message":...}`, `{"status":"NoHotelAnywhere",
  "message":...}`, and the full itinerary dictionary.
-/

/-- A flight-service record, one row of the flight SPARQL query
(`?flight ?price ?airline ?date` plus the filter columns). -/
structure FlightOffer where
  uri : String
  dep : String
  arr : String
  price : Int
  airline : String
  date : Int
deriving DecidableEq

/-- A hotel-service record, one row of a hotel SPARQL query
(`?hotel ?price ?rating ?avail_date` plus the location filter column). -/
structure HotelOffer where
  uri : String
  location : String
  price : Int
  rating : ℚ
  availDate : Int
deriving DecidableEq

/-- A taxi-service record (`?taxi ?price ?city`). -/
structure TaxiOffer where
  uri : String
  city : String
  price : Int
deriving DecidableEq

/-- The catalog queried by `plan_trip_enhanced` (the RDF graph built by
`build_graph`, abstracted to its typed service records). -/
structure Catalog where
  flights : List FlightOffer
  hotels : List HotelOffer
  taxis : List TaxiOffer
deriving DecidableEq

/-- The four status strings a result dictionary can carry. -/
inductive Status where
  | OK
  | OverBudget
  | NoFlights
  | NoHotelAnywhere
deriving DecidableEq

/-- The `chosen_hotel_method` values of `plan_trip_enhanced`:
`"ExactCityWithinWindow"`, `f"NearbyCity:{city}"`,
`f"NearbyCityNextAvail:{city}"`. -/
inductive HotelMethod where
  | exactCityWithinWindow
  | nearbyCity (city : String)
  | nearbyCityNextAvail (city : String)
deriving DecidableEq

/-- The dictionary returned by `plan_trip_enhanced`, one constructor per
shape actually returned: the two early-error dictionaries carry only a
status and a message, the itinerary dictionary carries the selections,
the total, the explanation lines and the flight-candidate list. -/
inductive PlanningResult where
  | noFlights (message : String)
  | noHotelAnywhere (message : String)
  | itinerary (status : Status) (flight : FlightOffer) (hotel : HotelOffer)
      (taxi : Option TaxiOffer) (totalCost : Int) (explanation : List String)
      (flightCandidates : List FlightOffer)
deriving DecidableEq

/-- Status of a result (the `"status"` key, present in every shape). -/
def PlanningResult.status : PlanningResult → Status
  | .noFlights _ => .NoFlights
  | .noHotelAnywhere _ => .NoHotelAnywhere
  | .itinerary st _ _ _ _ _ _ => st

/-- The `"flight"` key: present only in the itinerary dictionary. -/
def PlanningResult.flight? : PlanningResult → Option FlightOffer
  | .itinerary _ f _ _ _ _ _ => some f
  | _ => none

/-- The `"hotel"` key: present only in the itinerary dictionary. -/
def PlanningResult.hotel? : PlanningResult → Option HotelOffer
  | .itinerary _ _ h _ _ _ _ => some h
  | _ => none

/-- The `"taxi"` key: present only in the itinerary dictionary (and there
it may itself be `None`). -/
def PlanningResult.taxi? : PlanningResult → Option TaxiOffer
  | .itinerary _ _ _ t _ _ _ => t
  | _ => none

/-- The `"total_cost"` key: present only in the itinerary dictionary. -/
def PlanningResult.total? : PlanningResult → Option Int
  | .itinerary _ _ _ _ tc _ _ => some tc
  | _ => none

/-- The `"flight_candidates"` key: present only in the itinerary
dictionary. -/
def PlanningResult.candidates? : PlanningResult → Option (List FlightOffer)
  | .itinerary _ _ _ _ _ _ cs => some cs
  | _ => none

/-- Price order used by `ORDER BY ASC(xsd:integer(?price))` on flight rows. -/
def flightPriceLe (a b : FlightOffer) : Prop := a.price ≤ b.price

instance : DecidableRel flightPriceLe := fun a b =>
  inferInstanceAs (Decidable (a.price ≤ b.price))

instance : IsTotal FlightOffer flightPriceLe := ⟨fun a b => Int.le_total a.price b.price⟩

instance : IsTrans FlightOffer flightPriceLe := ⟨fun _ _ _ => Int.le_trans⟩

instance : IsRefl FlightOffer flightPriceLe := ⟨fun a => Int.le_refl a.price⟩

/-- Price order used by `ORDER BY ASC(xsd:integer(?price))` on hotel rows. -/
def hotelPriceLe (a b : HotelOffer) : Prop := a.price ≤ b.price

instance : DecidableRel hotelPriceLe := fun a b =>
  inferInstanceAs (Decidable (a.price ≤ b.price))

instance : IsTotal HotelOffer hotelPriceLe := ⟨fun a b => Int.le_total a.price b.price⟩

instance : IsTrans HotelOffer hotelPriceLe := ⟨fun _ _ _ => Int.le_trans⟩

instance : IsRefl HotelOffer hotelPriceLe := ⟨fun a => Int.le_refl a.price⟩

/-- Price order used by `ORDER BY ASC(xsd:integer(?price))` on taxi rows. -/
def taxiPriceLe (a b : TaxiOffer) : Prop := a.price ≤ b.price

instance : DecidableRel taxiPriceLe := fun a b =>
  inferInstanceAs (Decidable (a.price ≤ b.price))

instance : IsTotal TaxiOffer taxiPriceLe := ⟨fun a b => Int.le_total a.price b.price⟩

instance : IsTrans TaxiOffer taxiPriceLe := ⟨fun _ _ _ => Int.le_trans⟩

instance : IsRefl TaxiOffer taxiPriceLe := ⟨fun a => Int.le_refl a.price⟩

/-- The sort key `lambda h: (h["price"], -h["rating"])` of the Python
`sorted` calls, as a total preorder: price ascending, then rating
descending. -/
def hotelRankLe (a b : HotelOffer) : Prop :=
  a.price < b.price ∨ (a.price = b.price ∧ b.rating ≤ a.rating)

instance : DecidableRel hotelRankLe := fun a b =>
  inferInstanceAs (Decidable (a.price < b.price ∨ (a.price = b.price ∧ b.rating ≤ a.rating)))

instance : IsTotal HotelOffer hotelRankLe := by
  constructor
  intro a b
  rcases lt_trichotomy a.price b.price with h | h | h
  · exact Or.inl (Or.inl h)
  · rcases le_total b.rating a.rating with hr | hr
    · exact Or.inl (Or.inr ⟨h, hr⟩)
    · exact Or.inr (Or.inr ⟨h.symm, hr⟩)
  · exact Or.inr (Or.inl h)

instance : IsTrans HotelOffer hotelRankLe := by
  constructor
  intro a b c hab hbc
  rcases hab with h₁ | ⟨h₁, r₁⟩
  · rcases hbc with h₂ | ⟨h₂, _⟩
    · exact Or.inl (h₁.trans h₂)
    · exact Or.inl (h₂ ▸ h₁)
  · rcases hbc with h₂ | ⟨h₂, r₂⟩
    · exact Or.inl (h₁ ▸ h₂)
    · exact Or.inr ⟨h₁.trans h₂, r₂.trans r₁⟩

instance : IsRefl HotelOffer hotelRankLe := ⟨fun a => Or.inr ⟨rfl, le_refl a.rating⟩⟩

/-- The Python `sorted(candidates, key=lambda h: (h["price"], -h["rating"]))`
(a stable sort on the rank key). -/
def hotelRankSort (l : List HotelOffer) : List HotelOffer :=
  List.insertionSort hotelRankLe l

/-- The flight SPARQL query `q_flights`: rows whose `departureCity` and
`arrivalCity` literals match the request exactly, ordered by ascending
price. -/
def queryFlights (g : Catalog) (departure arrival : String) : List FlightOffer :=
  List.insertionSort flightPriceLe
    (g.flights.filter (fun f => decide (f.dep = departure ∧ f.arr = arrival)))

/-- Flight selection: `best_flight = flight_candidates[0]` (`None` when the
candidate list is empty, in which case the planner returns `NoFlights`). -/
def selectFlight (g : Catalog) (departure arrival : String) : Option FlightOffer :=
  (queryFlights g departure arrival).head?

/-- A hotel SPARQL query (`q_hotels_city` / `q_hotels_near`): rows whose
`location` literal matches the given city exactly, ordered by ascending
price. -/
def queryHotels (g : Catalog) (city : String) : List HotelOffer :=
  List.insertionSort hotelPriceLe
    (g.hotels.filter (fun h => decide (h.location = city)))

/-- The taxi SPARQL query `q_taxi_base`: all taxi rows ordered by ascending
price. -/
def queryTaxis (g : Catalog) : List TaxiOffer :=
  List.insertionSort taxiPriceLe g.taxis

/-- The first window filter:
`[h for h in cands if h["avail_date"] <= window_end and h["avail_date"] >= flight_date]`. -/
def inWindowFilter (flightDate windowEnd : Int) (cands : List HotelOffer) : List HotelOffer :=
  cands.filter (fun h => decide (h.availDate ≤ windowEnd ∧ flightDate ≤ h.availDate))

/-- The two window filters and their concatenation:
`within_window = [h for h in cands if h["avail_date"] <= window_end and h["avail_date"] >= flight_date]`
then `within_window += [h for h in cands if h["avail_date"] <= flight_date and h not in within_window]`.
Membership of the second filter is Python `in`, i.e. record (dict) equality. -/
def withinWindowList (flightDate windowEnd : Int) (cands : List HotelOffer) : List HotelOffer :=
  inWindowFilter flightDate windowEnd cands ++
    cands.filter (fun h =>
      decide (h.availDate ≤ flightDate ∧ h ∉ inWindowFilter flightDate windowEnd cands))

/-- The in-window candidate list of one city query:
`window_end = flight_date + timedelta(days=date_flex_days)` followed by the
two window filters on the rows of that city's hotel query. -/
def cityWindow (g : Catalog) (flightDate : Int) (flex : Nat) (city : String) : List HotelOffer :=
  withinWindowList flightDate (flightDate + (flex : Int)) (queryHotels g city)

/-- The dedup loop
`for h in within_window: if h["uri"] not in seen: filtered.append(h); seen.add(h["uri"])`
(run only for the arrival-city query). -/
def dedupByUri : List String → List HotelOffer → List HotelOffer
  | _, [] => []
  | seen, h :: t =>
    if h.uri ∈ seen then dedupByUri seen t
    else h :: dedupByUri (h.uri :: seen) t

/-- The next-available accumulation performed while iterating query rows:
`if avail >= flight_date: if next is None or avail < next["avail_date"]: next = row`. -/
def nextAvailableFold (flightDate : Int) : Option HotelOffer → List HotelOffer → Option HotelOffer
  | acc, [] => acc
  | none, h :: t =>
    if flightDate ≤ h.availDate then nextAvailableFold flightDate (some h) t
    else nextAvailableFold flightDate none t
  | some a, h :: t =>
    if flightDate ≤ h.availDate then
      if h.availDate < a.availDate then nextAvailableFold flightDate (some h) t
      else nextAvailableFold flightDate (some a) t
    else nextAvailableFold flightDate (some a) t

/-- State threaded through the nearby-city cascade: the mutable Python
variables `chosen_hotel`, `chosen_hotel_method`, `fallback_tried`. -/
structure HotelSelection where
  chosen : Option HotelOffer
  method : Option HotelMethod
  tried : List String
deriving DecidableEq

/-- One tier of the cascade: `for city in nearby_group: ...`.  A non-empty
in-window list selects its ranked head and breaks out of the loop; otherwise
a next-available row is recorded only when no pick of either kind has been
made yet, and iteration continues. -/
def cascadeCities (g : Catalog) (flightDate : Int) (flex : Nat) :
    HotelSelection → List String → HotelSelection
  | st, [] => st
  | st, city :: rest =>
    let tried' := st.tried ++ [city]
    match (hotelRankSort (cityWindow g flightDate flex city)).head? with
    | some h => ⟨some h, some (.nearbyCity city), tried'⟩
    | none =>
      match nextAvailableFold flightDate none (queryHotels g city) with
      | some na =>
        if st.chosen = none ∧ st.method = none then
          cascadeCities g flightDate flex ⟨some na, some (.nearbyCityNextAvail city), tried'⟩ rest
        else
          cascadeCities g flightDate flex ⟨st.chosen, st.method, tried'⟩ rest
      | none => cascadeCities g flightDate flex ⟨st.chosen, st.method, tried'⟩ rest

/-- The fixed immediate tier: `nearby_cities_immediate = ["Gurugram", "Noida"]`. -/
def nearby_cities_immediate : List String := ["Gurugram", "Noida"]

/-- The fixed region tier: `nearby_cities_region = ["Ghaziabad", "Faridabad"]`. -/
def nearby_cities_region : List String := ["Ghaziabad", "Faridabad"]

/-- The outer cascade loop `for nearby_group in (immediate, region)` with its
trailing `if chosen_hotel: break`: the region tier runs only when the
immediate tier ends with no pick of any kind. -/
def runCascade (g : Catalog) (flightDate : Int) (flex : Nat) : HotelSelection :=
  let r1 := cascadeCities g flightDate flex ⟨none, none, []⟩ nearby_cities_immediate
  match r1.chosen with
  | some _ => r1
  | none => cascadeCities g flightDate flex r1 nearby_cities_region

/-- Hotel matching of `plan_trip_enhanced`: the arrival-city query with the
window filters, identifier dedup and rank sort; on failure the nearby
cascade.  The `next_available` accumulator of the arrival-city loop is
computed but never read afterwards (bound to `_` here as in the source it is
dead). -/
def selectHotel (g : Catalog) (arrival : String) (flightDate : Int) (flex : Nat) :
    HotelSelection :=
  let hotel_candidates := queryHotels g arrival
  let _ := nextAvailableFold flightDate none hotel_candidates
  let filtered := dedupByUri [] (cityWindow g flightDate flex arrival)
  match (hotelRankSort filtered).head? with
  | some h => ⟨some h, some .exactCityWithinWindow, []⟩
  | none => runCascade g flightDate flex

/-- The `LIMIT 1` location lookup `q_loc` for a hotel picked by the
arrival-city branch (whose row dictionary has no `"city"` key). -/
def hotelCityLookup (g : Catalog) (uri : String) : Option String :=
  (g.hotels.find? (fun x => decide (x.uri = uri))).map (·.location)

/-- Taxi selection: the cheapest taxi in the chosen hotel's city (the city
key of a cascade row, else the `q_loc` lookup), falling back to the globally
cheapest taxi when no city match exists (also when no hotel was chosen). -/
def selectTaxi (g : Catalog) (chosenHotel : Option HotelOffer)
    (method : Option HotelMethod) : Option TaxiOffer :=
  let taxi_candidates := queryTaxis g
  let cityPick : Option TaxiOffer :=
    match chosenHotel with
    | none => none
    | some h =>
      let chCity : Option String :=
        match method with
        | some (.nearbyCity c) => some c
        | some (.nearbyCityNextAvail c) => some c
        | _ => hotelCityLookup g h.uri
      match chCity with
      | some c => taxi_candidates.find? (fun t => decide (t.city = c))
      | none => none
  match cityPick with
  | some t => some t
  | none => taxi_candidates.head?

/-- Taxi cost contribution: `chosen_taxi["price"] if chosen_taxi else 0`. -/
def taxiPriceOf : Option TaxiOffer → Int
  | some t => t.price
  | none => 0

/-- Rendering of `chosen_hotel_method` (an f-string in the source). -/
def methodLabel : Option HotelMethod → String
  | none => "None"
  | some .exactCityWithinWindow => "ExactCityWithinWindow"
  | some (.nearbyCity c) => "NearbyCity:" ++ c
  | some (.nearbyCityNextAvail c) => "NearbyCityNextAvail:" ++ c

/-- Local name of a URI: `uri.split('#')[-1]`. -/
def uriLocalName (s : String) : String := (s.splitOn "#").getLastD s

/-- The four `explanation.append(...)` lines. -/
def buildExplanation (f : FlightOffer) (h : HotelOffer) (m : Option HotelMethod)
    (t : Option TaxiOffer) (total budget : Int) : List String :=
  let l1 := "Selected flight " ++ f.airline ++ " on " ++ toString f.date ++
    " (₹" ++ toString f.price ++ ")."
  let l2 := "Hotel chosen method: " ++ methodLabel m ++ "; hotel: " ++
    uriLocalName h.uri ++ " available from " ++ toString h.availDate ++
    " (₹" ++ toString h.price ++ ")."
  let l4 := "Estimated total cost: ₹" ++ toString total ++
    " (Your budget: ₹" ++ toString budget ++ ")."
  match t with
  | some tx =>
    [l1, l2, "Taxi chosen: " ++ uriLocalName tx.uri ++ " in " ++ tx.city ++
      " (₹" ++ toString tx.price ++ ").", l4]
  | none => [l1, l2, l4]

/-- Steps 4-5 of `plan_trip_enhanced` after a flight is fixed: taxi
selection, the `NoHotelAnywhere` early return, cost and status computation,
and assembly of the itinerary dictionary. -/
def finishPlan (g : Catalog) (budget : Int) (best_flight : FlightOffer)
    (flight_candidates : List FlightOffer) (hsel : HotelSelection) : PlanningResult :=
  let chosen_taxi := selectTaxi g hsel.chosen hsel.method
  match hsel.chosen with
  | none => .noHotelAnywhere "No hotel found in city or nearby; recommend adjusting date or city."
  | some hotel =>
    let total_cost := best_flight.price + hotel.price + taxiPriceOf chosen_taxi
    let explanation := buildExplanation best_flight hotel hsel.method chosen_taxi total_cost budget
    let status := if total_cost ≤ budget then Status.OK else Status.OverBudget
    .itinerary status best_flight hotel chosen_taxi total_cost explanation flight_candidates

/-- The planning function `plan_trip_enhanced(graph, departure, arrival,
dep_date_str, budget, date_flex_days)`.  `depDateInput` is the parse of
`dep_date_str` (`none` when `datetime.fromisoformat` raises), `today` the
`datetime.now().date()` fallback; their combination `arrival_date` is
computed and, as in the source, never used again. -/
def plan_trip_enhanced (g : Catalog) (departure arrival : String)
    (depDateInput : Option Int) (today : Int) (budget : Int) (dateFlexDays : Nat) :
    PlanningResult :=
  let _arrival_date := depDateInput.getD today
  let flight_candidates := queryFlights g departure arrival
  match flight_candidates with
  | [] => .noFlights "No flights found for route."
  | best_flight :: _ =>
    finishPlan g budget best_flight flight_candidates
      (selectHotel g arrival best_flight.date dateFlexDays)

/-! ### Concrete catalogs and records used as evaluation inputs

Dates are day numbers; ratings are integral rationals so that all
comparisons kernel-reduce. -/

/-- The cheapest Chennai-to-Delhi flight of `demoCatalog`. -/
def demoFlight : FlightOffer := ⟨"F1", "Chennai", "Delhi", 6500, "IndiGo", 50⟩

/-- The single Delhi hotel of `demoCatalog`, available on the flight day. -/
def demoHotel : HotelOffer := ⟨"H1", "Delhi", 3000, 4, 50⟩

/-- The single Delhi taxi of `demoCatalog`. -/
def demoTaxi : TaxiOffer := ⟨"T1", "Delhi", 900⟩

/-- A cheapest and a pricier Chennai-to-Delhi flight, one in-window Delhi
hotel, one Delhi taxi (the shape of scenario A of the demo data). -/
def demoCatalog : Catalog :=
  { flights := [demoFlight, ⟨"F2", "Chennai", "Delhi", 7200, "Air India", 50⟩],
    hotels := [demoHotel],
    taxis := [demoTaxi] }

/-- A feasible itinerary catalog with an empty taxi table. -/
def noTaxiCatalog : Catalog :=
  { flights := [⟨"F1", "Chennai", "Delhi", 5, "IndiGo", 0⟩],
    hotels := [⟨"HD", "Delhi", 3, 4, 0⟩],
    taxis := [] }

/-- A flight exists but no hotel anywhere is in reach (the only Delhi hotel
opens on day 10, past the day-0 flight plus 2 flexible days; the four
fallback cities have nothing). -/
def noHotelCatalog : Catalog :=
  { flights := [⟨"F1", "Chennai", "Delhi", 6500, "IndiGo", 0⟩],
    hotels := [⟨"HD0", "Delhi", 7, 4, 10⟩],
    taxis := [⟨"T1", "Delhi", 900⟩] }

/-- The out-of-window Gurugram hotel of `regionSkipCatalog`: available only
on day 10. -/
def hotelHG : HotelOffer := ⟨"HG", "Gurugram", 5, 4, 10⟩

/-- The in-window Ghaziabad hotel of `regionSkipCatalog`: available on
day 0. -/
def hotelHZ : HotelOffer := ⟨"HZ", "Ghaziabad", 7, 4, 0⟩

/-- No Delhi hotel; Gurugram has only an out-of-window hotel (provisional
next-available pick), Ghaziabad has an in-window hotel that the region tier
would find. -/
def regionSkipCatalog : Catalog :=
  { flights := [⟨"F1", "Chennai", "Delhi", 6500, "IndiGo", 0⟩],
    hotels := [hotelHG, hotelHZ],
    taxis := [] }

/-- The single in-window Gurugram hotel of `c9Catalog`. -/
def hotelG9 : HotelOffer := ⟨"HG9", "Gurugram", 5, 4, 1⟩

/-- No Delhi hotel; the first cascade city already has an in-window hotel,
so the cascade stops after one city. -/
def c9Catalog : Catalog :=
  { flights := [⟨"F1", "Chennai", "Delhi", 6500, "IndiGo", 0⟩],
    hotels := [hotelG9],
    taxis := [] }

/-- The late-opening Gurugram hotel of `gurugramArrivalCatalog`. -/
def lateGurugramHotel : HotelOffer := ⟨"HG2", "Gurugram", 5, 4, 10⟩

/-- A trip whose arrival city is Gurugram — one of the cascade constants —
with only a hotel opening after the flexible window. -/
def gurugramArrivalCatalog : Catalog :=
  { flights := [⟨"F1", "Chennai", "Gurugram", 6500, "IndiGo", 0⟩],
    hotels := [lateGurugramHotel],
    taxis := [] }

/-- The late-opening Delhi hotel of `lateDelhiCatalog`. -/
def lateDelhiHotel : HotelOffer := ⟨"HD", "Delhi", 5, 4, 10⟩

/-- A Chennai-to-Delhi flight on day 0 and a Delhi hotel opening on day 10:
outside the flexible window, and no fallback-city hotels. -/
def lateDelhiCatalog : Catalog :=
  { flights := [⟨"F1", "Chennai", "Delhi", 6500, "IndiGo", 0⟩],
    hotels := [lateDelhiHotel],
    taxis := [] }

/-! ### Generic facts about the modelled SPARQL ordering -/

/-- The head of a stably price-sorted list is a minimum of the list. -/
theorem head?_insertionSort_min {α : Type} (r : α → α → Prop) [DecidableRel r]
    [IsTotal α r] [IsTrans α r] [IsRefl α r] {l : List α} {a : α}
    (h : (List.insertionSort r l).head? = some a) : a ∈ l ∧ ∀ b ∈ l, r a b := by
  cases e : List.insertionSort r l with
  | nil => rw [e] at h; simp at h
  | cons x t =>
    rw [e] at h
    simp only [List.head?_cons, Option.some.injEq] at h
    subst h
    have hs : List.Sorted r (x :: t) := e ▸ List.sorted_insertionSort r l
    have hperm : List.Perm (x :: t) l := e ▸ List.perm_insertionSort r l
    refine ⟨hperm.mem_iff.mp (List.mem_cons_self x t), ?_⟩
    intro b hb
    rcases List.mem_cons.mp (hperm.mem_iff.mpr hb) with hbx | hbt
    · exact hbx ▸ refl_of r x
    · exact (List.sorted_cons.mp hs).1 b hbt

/-- A sorted list is a permutation of its input, so emptiness of the input
forces `head? = none` and vice versa. -/
theorem head?_insertionSort_some_of_ne_nil {α : Type} (r : α → α → Prop) [DecidableRel r]
    {l : List α} (h : l ≠ []) : ∃ a, (List.insertionSort r l).head? = some a := by
  cases e : List.insertionSort r l with
  | nil =>
    exfalso
    have hperm := List.perm_insertionSort r l
    rw [e] at hperm
    exact h hperm.symm.eq_nil
  | cons x t => exact ⟨x, by simp⟩

/-! ### Query membership -/

/-- Flight-query rows are exactly the exactly-matching flight records. -/
theorem mem_queryFlights {g : Catalog} {dep arr : String} {f : FlightOffer} :
    f ∈ queryFlights g dep arr ↔ f ∈ g.flights ∧ f.dep = dep ∧ f.arr = arr := by
  unfold queryFlights
  rw [(List.perm_insertionSort flightPriceLe _).mem_iff]
  simp [List.mem_filter]

/-- Hotel-query rows are exactly the hotel records of the queried city. -/
theorem mem_queryHotels {g : Catalog} {city : String} {h : HotelOffer} :
    h ∈ queryHotels g city ↔ h ∈ g.hotels ∧ h.location = city := by
  unfold queryHotels
  rw [(List.perm_insertionSort hotelPriceLe _).mem_iff]
  simp [List.mem_filter]

/-- Membership of the concatenated window lists is membership of the query
rows plus the disjunction of the two date conditions. -/
theorem mem_withinWindowList {fd we : Int} {cands : List HotelOffer} {h : HotelOffer} :
    h ∈ withinWindowList fd we cands ↔
      h ∈ cands ∧ ((fd ≤ h.availDate ∧ h.availDate ≤ we) ∨ h.availDate ≤ fd) := by
  unfold withinWindowList inWindowFilter
  simp only [List.mem_append, List.mem_filter, decide_eq_true_eq]
  constructor
  · rintro (⟨hc, h1, h2⟩ | ⟨hc, hB, _⟩)
    · exact ⟨hc, Or.inl ⟨h2, h1⟩⟩
    · exact ⟨hc, Or.inr hB⟩
  · rintro ⟨hc, ⟨h1, h2⟩ | hB⟩
    · exact Or.inl ⟨hc, h2, h1⟩
    · by_cases hw : h.availDate ≤ we ∧ fd ≤ h.availDate
      · exact Or.inl ⟨hc, hw⟩
      · exact Or.inr ⟨hc, hB, fun hcon => hw hcon.2⟩

/-- Membership of a city's in-window candidate list, in terms of the raw
catalog: located in the city and inside the inclusive window or already
available. -/
theorem mem_cityWindow {g : Catalog} {fd : Int} {flex : Nat} {city : String} {h : HotelOffer} :
    h ∈ cityWindow g fd flex city ↔
      h ∈ g.hotels ∧ h.location = city ∧
        ((fd ≤ h.availDate ∧ h.availDate ≤ fd + (flex : Int)) ∨ h.availDate ≤ fd) := by
  unfold cityWindow
  rw [mem_withinWindowList]
  rw [mem_queryHotels]
  tauto

/-! ### The identifier dedup pass -/

/-- The dedup loop only drops entries. -/
theorem dedupByUri_subset : ∀ (seen : List String) (l : List HotelOffer) (h : HotelOffer),
    h ∈ dedupByUri seen l → h ∈ l := by
  intro seen l
  induction l generalizing seen with
  | nil => intro h hh; simp [dedupByUri] at hh
  | cons x t ih =>
    intro h hh
    unfold dedupByUri at hh
    by_cases hx : x.uri ∈ seen
    · rw [if_pos hx] at hh
      exact List.mem_cons_of_mem x (ih seen h hh)
    · rw [if_neg hx] at hh
      rcases List.mem_cons.mp hh with rfl | hh'
      · exact List.mem_cons_self h t
      · exact List.mem_cons_of_mem x (ih (x.uri :: seen) h hh')

/-- No surviving entry carries an identifier from the seen set. -/
theorem dedupByUri_not_seen : ∀ (seen : List String) (l : List HotelOffer) (h : HotelOffer),
    h ∈ dedupByUri seen l → h.uri ∉ seen := by
  intro seen l
  induction l generalizing seen with
  | nil => intro h hh; simp [dedupByUri] at hh
  | cons x t ih =>
    intro h hh
    unfold dedupByUri at hh
    by_cases hx : x.uri ∈ seen
    · rw [if_pos hx] at hh
      exact ih seen h hh
    · rw [if_neg hx] at hh
      rcases List.mem_cons.mp hh with rfl | hh'
      · exact hx
      · intro hs
        exact ih (x.uri :: seen) h hh' (List.mem_cons_of_mem _ hs)

/-- The surviving entries carry pairwise distinct identifiers. -/
theorem dedupByUri_uri_nodup : ∀ (seen : List String) (l : List HotelOffer),
    ((dedupByUri seen l).map (·.uri)).Nodup := by
  intro seen l
  induction l generalizing seen with
  | nil => simp [dedupByUri]
  | cons x t ih =>
    unfold dedupByUri
    by_cases hx : x.uri ∈ seen
    · rw [if_pos hx]; exact ih seen
    · rw [if_neg hx]
      simp only [List.map_cons, List.nodup_cons]
      refine ⟨?_, ih (x.uri :: seen)⟩
      intro hmem
      rcases List.mem_map.mp hmem with ⟨y, hy, hyuri⟩
      exact dedupByUri_not_seen _ _ _ hy (hyuri ▸ List.mem_cons_self x.uri seen)

/-- On a list whose identifiers are already pairwise distinct (and disjoint
from the seen set) the dedup loop is the identity. -/
theorem dedupByUri_eq_self : ∀ (seen : List String) (l : List HotelOffer),
    (∀ h ∈ l, h.uri ∉ seen) → (l.map (·.uri)).Nodup → dedupByUri seen l = l := by
  intro seen l
  induction l generalizing seen with
  | nil => intro _ _; rfl
  | cons x t ih =>
    intro hdisj hnd
    unfold dedupByUri
    rw [if_neg (hdisj x (List.mem_cons_self x t))]
    simp only [List.map_cons, List.nodup_cons] at hnd
    congr 1
    apply ih
    · intro h hht
      intro hs
      rcases List.mem_cons.mp hs with huri | hseen
      · exact hnd.1 (huri ▸ List.mem_map_of_mem (·.uri) hht)
      · exact hdisj h (List.mem_cons_of_mem x hht) hseen
    · exact hnd.2

/-! ### Identifier distinctness through the queries and window lists -/

/-- A hotel query preserves pairwise-distinct identifiers. -/
theorem queryHotels_uri_nodup {g : Catalog} {city : String}
    (hU : (g.hotels.map (·.uri)).Nodup) : ((queryHotels g city).map (·.uri)).Nodup := by
  unfold queryHotels
  have hperm := (List.perm_insertionSort hotelPriceLe
    (g.hotels.filter (fun h => decide (h.location = city)))).map (fun h : HotelOffer => h.uri)
  rw [hperm.nodup_iff]
  exact hU.sublist ((List.filter_sublist _).map (fun h : HotelOffer => h.uri))

/-- The concatenated window lists preserve pairwise-distinct identifiers:
the two filters select disjoint sublists of the query rows (the second
filter excludes, record-wise, everything in the first). -/
theorem withinWindowList_uri_nodup {fd we : Int} {cands : List HotelOffer}
    (hU : (cands.map (·.uri)).Nodup) :
    ((withinWindowList fd we cands).map (·.uri)).Nodup := by
  unfold withinWindowList
  rw [List.map_append]
  have hinj := List.inj_on_of_nodup_map hU
  have hA : ((inWindowFilter fd we cands).map (·.uri)).Nodup := by
    unfold inWindowFilter
    exact hU.sublist ((List.filter_sublist _).map (fun h : HotelOffer => h.uri))
  have hB : ((cands.filter (fun h =>
      decide (h.availDate ≤ fd ∧ h ∉ inWindowFilter fd we cands))).map (·.uri)).Nodup :=
    hU.sublist ((List.filter_sublist _).map (fun h : HotelOffer => h.uri))
  refine hA.append hB ?_
  intro u huA huB
  rcases List.mem_map.mp huA with ⟨x, hxA, hxu⟩
  rcases List.mem_map.mp huB with ⟨y, hyB, hyu⟩
  have hxc : x ∈ cands := List.mem_of_mem_filter hxA
  have hyc : y ∈ cands := List.mem_of_mem_filter hyB
  have hxy : x = y := hinj hxc hyc (hxu.trans hyu.symm)
  have hyprop := (List.mem_filter.mp hyB).2
  simp only [decide_eq_true_eq] at hyprop
  exact hyprop.2 (hxy ▸ hxA)

/-- A city's in-window candidate list preserves pairwise-distinct catalog
identifiers. -/
theorem cityWindow_uri_nodup {g : Catalog} {fd : Int} {flex : Nat} {city : String}
    (hU : (g.hotels.map (·.uri)).Nodup) :
    ((cityWindow g fd flex city).map (·.uri)).Nodup :=
  withinWindowList_uri_nodup (queryHotels_uri_nodup hU)

/-! ### Cascade step lemmas -/

/-- Every in-window candidate of a city is a row of that city's query. -/
theorem cityWindow_subset_query {g : Catalog} {fd : Int} {flex : Nat} {city : String}
    {h : HotelOffer} (hm : h ∈ cityWindow g fd flex city) : h ∈ queryHotels g city :=
  (mem_withinWindowList.mp hm).1

/-- The next-available accumulator only ever holds the initial value or a
row of the traversed list. -/
theorem nextAvailableFold_mem (fd : Int) :
    ∀ (acc : Option HotelOffer) (l : List HotelOffer) (na : HotelOffer),
      nextAvailableFold fd acc l = some na → acc = some na ∨ na ∈ l := by
  intro acc l
  induction l generalizing acc with
  | nil => intro na h; cases acc <;> exact Or.inl h
  | cons x t ih =>
    intro na h
    cases acc with
    | none =>
      unfold nextAvailableFold at h
      by_cases hd : fd ≤ x.availDate
      · rw [if_pos hd] at h
        rcases ih (some x) na h with hacc | hmem
        · exact Or.inr (Option.some_inj.mp hacc ▸ List.mem_cons_self x t)
        · exact Or.inr (List.mem_cons_of_mem x hmem)
      · rw [if_neg hd] at h
        rcases ih none na h with hacc | hmem
        · exact Or.inl hacc
        · exact Or.inr (List.mem_cons_of_mem x hmem)
    | some a =>
      unfold nextAvailableFold at h
      by_cases hd : fd ≤ x.availDate
      · rw [if_pos hd] at h
        by_cases hlt : x.availDate < a.availDate
        · rw [if_pos hlt] at h
          rcases ih (some x) na h with hacc | hmem
          · exact Or.inr (Option.some_inj.mp hacc ▸ List.mem_cons_self x t)
          · exact Or.inr (List.mem_cons_of_mem x hmem)
        · rw [if_neg hlt] at h
          rcases ih (some a) na h with hacc | hmem
          · exact Or.inl hacc
          · exact Or.inr (List.mem_cons_of_mem x hmem)
      · rw [if_neg hd] at h
        rcases ih (some a) na h with hacc | hmem
        · exact Or.inl hacc
        · exact Or.inr (List.mem_cons_of_mem x hmem)

/-- A pick can never be unset by later cascade steps. -/
theorem cascadeCities_chosen_none (g : Catalog) (fd : Int) (flex : Nat) :
    ∀ (cs : List String) (st : HotelSelection),
      (cascadeCities g fd flex st cs).chosen = none → st.chosen = none := by
  intro cs
  induction cs with
  | nil => exact fun _ h => h
  | cons city rest ih =>
    intro st h
    simp only [cascadeCities] at h
    split at h
    · simp at h
    · split at h
      · split at h
        · exact absurd (ih _ h) (by simp)
        · exact ih ⟨st.chosen, st.method, st.tried ++ [city]⟩ h
      · exact ih ⟨st.chosen, st.method, st.tried ++ [city]⟩ h

/-- The tried-city log grows by an initial segment of the processed list. -/
theorem cascadeCities_tried (g : Catalog) (fd : Int) (flex : Nat) :
    ∀ (cs : List String) (st : HotelSelection),
      ∃ p rest2, (cascadeCities g fd flex st cs).tried = st.tried ++ p ∧ p ++ rest2 = cs := by
  intro cs
  induction cs with
  | nil => exact fun st => ⟨[], [], by simp [cascadeCities], rfl⟩
  | cons city rest ih =>
    intro st
    simp only [cascadeCities]
    split
    · exact ⟨[city], rest, rfl, rfl⟩
    · split
      · split
        · obtain ⟨p, r2, hp, hr⟩ := ih ⟨_, _, st.tried ++ [city]⟩
          exact ⟨city :: p, r2, by simpa [List.append_assoc] using hp, by simp [hr]⟩
        · obtain ⟨p, r2, hp, hr⟩ := ih ⟨st.chosen, st.method, st.tried ++ [city]⟩
          exact ⟨city :: p, r2, by simpa [List.append_assoc] using hp, by simp [hr]⟩
      · obtain ⟨p, r2, hp, hr⟩ := ih ⟨st.chosen, st.method, st.tried ++ [city]⟩
        exact ⟨city :: p, r2, by simpa [List.append_assoc] using hp, by simp [hr]⟩

/-- When a tier ends without a pick, every one of its cities was tried. -/
theorem cascadeCities_none_tried (g : Catalog) (fd : Int) (flex : Nat) :
    ∀ (cs : List String) (st : HotelSelection),
      (cascadeCities g fd flex st cs).chosen = none →
      (cascadeCities g fd flex st cs).tried = st.tried ++ cs := by
  intro cs
  induction cs with
  | nil => intro st _; simp [cascadeCities]
  | cons city rest ih =>
    intro st h
    cases e1 : (hotelRankSort (cityWindow g fd flex city)).head? with
    | some hw =>
      simp only [cascadeCities, e1] at h
      simp at h
    | none =>
      cases e2 : nextAvailableFold fd none (queryHotels g city) with
      | some na =>
        by_cases e3 : st.chosen = none ∧ st.method = none
        · simp only [cascadeCities, e1, e2, if_pos e3] at h
          exact absurd (cascadeCities_chosen_none g fd flex rest _ h) (by simp)
        · simp only [cascadeCities, e1, e2, if_neg e3] at h ⊢
          rw [ih ⟨st.chosen, st.method, st.tried ++ [city]⟩ h]
          simp
      | none =>
        simp only [cascadeCities, e1, e2] at h ⊢
        rw [ih ⟨st.chosen, st.method, st.tried ++ [city]⟩ h]
        simp

/-- A provisional pick survives any suffix of cities that have no in-window
candidate: their next-available rows are ignored because a pick is already
set, and every such city is still tried. -/
theorem cascadeCities_keep_provisional (g : Catalog) (fd : Int) (flex : Nat) :
    ∀ (cs : List String) (h : HotelOffer) (m : HotelMethod) (tried : List String),
      (∀ c ∈ cs, cityWindow g fd flex c = []) →
      cascadeCities g fd flex ⟨some h, some m, tried⟩ cs = ⟨some h, some m, tried ++ cs⟩ := by
  intro cs
  induction cs with
  | nil => intro h m tried _; simp [cascadeCities]
  | cons city rest ih =>
    intro h m tried hempty
    have e1 : (hotelRankSort (cityWindow g fd flex city)).head? = none := by
      rw [hempty city (List.mem_cons_self city rest)]; rfl
    have hrest : ∀ c ∈ rest, cityWindow g fd flex c = [] :=
      fun c hc => hempty c (List.mem_cons_of_mem city hc)
    cases e2 : nextAvailableFold fd none (queryHotels g city) with
    | some na =>
      simp only [cascadeCities, e1, e2]
      rw [if_neg (by simp)]
      rw [ih h m (tried ++ [city]) hrest]
      simp
    | none =>
      simp only [cascadeCities, e1, e2]
      rw [ih h m (tried ++ [city]) hrest]
      simp

/-- Even with a provisional pick set, a later city of the same tier whose
in-window list is non-empty overrides the pick with its ranked head and
stops the tier. -/
theorem cascadeCities_override (g : Catalog) (fd : Int) (flex : Nat) :
    ∀ (cs₁ : List String) (c : String) (cs₂ : List String) (h : HotelOffer)
      (m : HotelMethod) (tried : List String) (hw : HotelOffer),
      (∀ c' ∈ cs₁, cityWindow g fd flex c' = []) →
      (hotelRankSort (cityWindow g fd flex c)).head? = some hw →
      cascadeCities g fd flex ⟨some h, some m, tried⟩ (cs₁ ++ c :: cs₂) =
        ⟨some hw, some (.nearbyCity c), (tried ++ cs₁) ++ [c]⟩ := by
  intro cs₁
  induction cs₁ with
  | nil =>
    intro c cs₂ h m tried hw _ hc
    simp only [List.nil_append]
    simp [cascadeCities, hc]
  | cons city rest ih =>
    intro c cs₂ h m tried hw hempty hc
    have e1 : (hotelRankSort (cityWindow g fd flex city)).head? = none := by
      rw [hempty city (List.mem_cons_self city rest)]; rfl
    have hrest : ∀ c' ∈ rest, cityWindow g fd flex c' = [] :=
      fun c' hc' => hempty c' (List.mem_cons_of_mem city hc')
    have step := ih c cs₂ h m (tried ++ [city]) hw hrest hc
    cases e2 : nextAvailableFold fd none (queryHotels g city) with
    | some na =>
      simp only [List.cons_append, cascadeCities, e1, e2]
      rw [if_neg (by simp)]
      simpa [List.append_eq, List.append_assoc] using step
    | none =>
      simp only [List.cons_append, cascadeCities, e1, e2]
      simpa [List.append_eq, List.append_assoc] using step

/-- Any pick produced by a cascade tier is either the incoming pick or a row
of one of the tier's city queries. -/
theorem cascadeCities_chosen_src (g : Catalog) (fd : Int) (flex : Nat) :
    ∀ (cs : List String) (st : HotelSelection) (h : HotelOffer),
      (cascadeCities g fd flex st cs).chosen = some h →
      st.chosen = some h ∨ ∃ c ∈ cs, h ∈ queryHotels g c := by
  intro cs
  induction cs with
  | nil => intro st h hh; exact Or.inl hh
  | cons city rest ih =>
    intro st h hh
    cases e1 : (hotelRankSort (cityWindow g fd flex city)).head? with
    | some hw =>
      simp only [cascadeCities, e1] at hh
      have hwh : hw = h := by simpa using hh
      subst hwh
      have hmem : hw ∈ cityWindow g fd flex city := by
        have := head?_insertionSort_min hotelRankLe (l := cityWindow g fd flex city) e1
        exact this.1
      exact Or.inr ⟨city, List.mem_cons_self city rest, cityWindow_subset_query hmem⟩
    | none =>
      cases e2 : nextAvailableFold fd none (queryHotels g city) with
      | some na =>
        by_cases e3 : st.chosen = none ∧ st.method = none
        · simp only [cascadeCities, e1, e2, if_pos e3] at hh
          rcases ih ⟨some na, some (.nearbyCityNextAvail city), st.tried ++ [city]⟩ h hh with
            hst | ⟨c, hc, hq⟩
          · have : na = h := by simpa using hst
            subst this
            refine Or.inr ⟨city, List.mem_cons_self city rest, ?_⟩
            rcases nextAvailableFold_mem fd none (queryHotels g city) na e2 with hacc | hmem
            · cases hacc
            · exact hmem
          · exact Or.inr ⟨c, List.mem_cons_of_mem city hc, hq⟩
        · simp only [cascadeCities, e1, e2, if_neg e3] at hh
          rcases ih ⟨st.chosen, st.method, st.tried ++ [city]⟩ h hh with hst | ⟨c, hc, hq⟩
          · exact Or.inl hst
          · exact Or.inr ⟨c, List.mem_cons_of_mem city hc, hq⟩
      | none =>
        simp only [cascadeCities, e1, e2] at hh
        rcases ih ⟨st.chosen, st.method, st.tried ++ [city]⟩ h hh with hst | ⟨c, hc, hq⟩
        · exact Or.inl hst
        · exact Or.inr ⟨c, List.mem_cons_of_mem city hc, hq⟩

/-! ### Whole-cascade and selection lemmas -/

/-- Any hotel picked by the full cascade is a row of one of the four fixed
fallback cities' queries. -/
theorem runCascade_chosen_src {g : Catalog} {fd : Int} {flex : Nat} {h : HotelOffer}
    (hh : (runCascade g fd flex).chosen = some h) :
    ∃ c ∈ nearby_cities_immediate ++ nearby_cities_region, h ∈ queryHotels g c := by
  unfold runCascade at hh
  cases e : (cascadeCities g fd flex ⟨none, none, []⟩ nearby_cities_immediate).chosen with
  | some x =>
    simp only [e] at hh
    rcases cascadeCities_chosen_src g fd flex nearby_cities_immediate ⟨none, none, []⟩ h
        (e.trans hh) with hst | ⟨c, hc, hq⟩
    · cases hst
    · exact ⟨c, List.mem_append_left _ hc, hq⟩
  | none =>
    simp only [e] at hh
    rcases cascadeCities_chosen_src g fd flex nearby_cities_region _ h hh with hst | ⟨c, hc, hq⟩
    · rw [e] at hst; cases hst
    · exact ⟨c, List.mem_append_right _ hc, hq⟩

/-- The tried-city log of the full cascade is an initial segment of the four
fixed fallback cities in their fixed order. -/
theorem runCascade_tried (g : Catalog) (fd : Int) (flex : Nat) :
    ∃ rest2, (runCascade g fd flex).tried ++ rest2 =
      nearby_cities_immediate ++ nearby_cities_region := by
  unfold runCascade
  cases e : (cascadeCities g fd flex ⟨none, none, []⟩ nearby_cities_immediate).chosen with
  | some x =>
    simp only [e]
    obtain ⟨p, r2, hp, hr⟩ :=
      cascadeCities_tried g fd flex nearby_cities_immediate ⟨none, none, []⟩
    refine ⟨r2 ++ nearby_cities_region, ?_⟩
    rw [hp]
    simp only [List.nil_append]  -- st.tried = []
    rw [← List.append_assoc, hr]
  | none =>
    simp only [e]
    have h1 : (cascadeCities g fd flex ⟨none, none, []⟩ nearby_cities_immediate).tried =
        nearby_cities_immediate :=
      cascadeCities_none_tried g fd flex nearby_cities_immediate ⟨none, none, []⟩ e
    obtain ⟨p, r2, hp, hr⟩ := cascadeCities_tried g fd flex nearby_cities_region
      (cascadeCities g fd flex ⟨none, none, []⟩ nearby_cities_immediate)
    refine ⟨r2, ?_⟩
    rw [hp, h1]
    rw [List.append_assoc, hr]

/-- The arrival-city branch of hotel matching: a non-empty ranked deduped
window list selects its head with the exact-city method and leaves the
fallback log empty. -/
theorem selectHotel_exact {g : Catalog} {arrival : String} {fd : Int} {flex : Nat}
    {h : HotelOffer}
    (e : (hotelRankSort (dedupByUri [] (cityWindow g fd flex arrival))).head? = some h) :
    selectHotel g arrival fd flex = ⟨some h, some .exactCityWithinWindow, []⟩ := by
  simp only [selectHotel]
  rw [e]

/-- The fallback branch of hotel matching: an empty ranked deduped window
list hands over to the nearby cascade. -/
theorem selectHotel_cascade {g : Catalog} {arrival : String} {fd : Int} {flex : Nat}
    (e : (hotelRankSort (dedupByUri [] (cityWindow g fd flex arrival))).head? = none) :
    selectHotel g arrival fd flex = runCascade g fd flex := by
  simp only [selectHotel]
  rw [e]

/-- When the arrival city has no in-window candidate at all, the exact-city
branch cannot fire. -/
theorem exactHead_none_of_cityWindow_nil {g : Catalog} {arrival : String} {fd : Int}
    {flex : Nat} (e : cityWindow g fd flex arrival = []) :
    (hotelRankSort (dedupByUri [] (cityWindow g fd flex arrival))).head? = none := by
  rw [e]
  rfl

/-! ### Planner decomposition -/

/-- An empty flight-candidate list returns the NoFlights dictionary. -/
theorem plan_eq_noFlights {g : Catalog} {dep arr : String} {input : Option Int}
    {today budget : Int} {flex : Nat} (e : queryFlights g dep arr = []) :
    plan_trip_enhanced g dep arr input today budget flex =
      .noFlights "No flights found for route." := by
  unfold plan_trip_enhanced
  rw [e]

/-- A non-empty flight-candidate list continues with its head as the chosen
flight. -/
theorem plan_eq_finish {g : Catalog} {dep arr : String} {input : Option Int}
    {today budget : Int} {flex : Nat} {f : FlightOffer} {fs : List FlightOffer}
    (e : queryFlights g dep arr = f :: fs) :
    plan_trip_enhanced g dep arr input today budget flex =
      finishPlan g budget f (f :: fs) (selectHotel g arr f.date flex) := by
  unfold plan_trip_enhanced
  rw [e]

/-- No chosen hotel returns the NoHotelAnywhere dictionary. -/
theorem finishPlan_none {g : Catalog} {budget : Int} {f : FlightOffer}
    {cands : List FlightOffer} {hsel : HotelSelection} (e : hsel.chosen = none) :
    finishPlan g budget f cands hsel =
      .noHotelAnywhere "No hotel found in city or nearby; recommend adjusting date or city." := by
  unfold finishPlan
  rw [e]

/-- A chosen hotel produces the itinerary dictionary with the exact cost sum
and the inclusive budget comparison. -/
theorem finishPlan_some {g : Catalog} {budget : Int} {f : FlightOffer}
    {cands : List FlightOffer} {hsel : HotelSelection} {h : HotelOffer}
    (e : hsel.chosen = some h) :
    finishPlan g budget f cands hsel =
      .itinerary
        (if f.price + h.price + taxiPriceOf (selectTaxi g (some h) hsel.method) ≤ budget
          then .OK else .OverBudget)
        f h (selectTaxi g (some h) hsel.method)
        (f.price + h.price + taxiPriceOf (selectTaxi g (some h) hsel.method))
        (buildExplanation f h hsel.method (selectTaxi g (some h) hsel.method)
          (f.price + h.price + taxiPriceOf (selectTaxi g (some h) hsel.method)) budget)
        cands := by
  unfold finishPlan
  rw [e]

/-! ### Claims -/

/-- C8: for every fixed catalog, route, budget and window size,
`plan_trip_enhanced` returns identical results for any two travel-date
inputs (parseable — any parsed day — or unparsable, under any current
date): the parsed `arrival_date` is dead after its computation. -/
theorem claim_C8_travel_date_unused (g : Catalog) (departure arrival : String)
    (input1 input2 : Option Int) (today1 today2 : Int) (budget : Int) (flex : Nat) :
    plan_trip_enhanced g departure arrival input1 today1 budget flex =
      plan_trip_enhanced g departure arrival input2 today2 budget flex := rfl

/-- C2: any selected flight is an exactly-matching offer of minimum price
among the exactly-matching offers; the planner reports exactly the selected
flight; a flight is selected whenever a matching offer exists; and with no
matching offer the planner returns the NoFlights dictionary carrying no
selections. -/
theorem claim_C2_cheapest_flight (g : Catalog) (dep arr : String) (input : Option Int)
    (today budget : Int) (flex : Nat) :
    (∀ f, selectFlight g dep arr = some f →
      (f ∈ g.flights ∧ f.dep = dep ∧ f.arr = arr) ∧
      ∀ f2 ∈ g.flights, f2.dep = dep → f2.arr = arr → f.price ≤ f2.price) ∧
    (∀ f, (plan_trip_enhanced g dep arr input today budget flex).flight? = some f →
      selectFlight g dep arr = some f) ∧
    ((∃ f2 ∈ g.flights, f2.dep = dep ∧ f2.arr = arr) →
      ∃ f, selectFlight g dep arr = some f) ∧
    ((¬ ∃ f2 ∈ g.flights, f2.dep = dep ∧ f2.arr = arr) →
      (plan_trip_enhanced g dep arr input today budget flex).status = .NoFlights ∧
      (plan_trip_enhanced g dep arr input today budget flex).flight? = none ∧
      (plan_trip_enhanced g dep arr input today budget flex).hotel? = none ∧
      (plan_trip_enhanced g dep arr input today budget flex).taxi? = none) := by
  refine ⟨?_, ?_, ?_, ?_⟩
  · intro f hf
    unfold selectFlight queryFlights at hf
    have hmin := head?_insertionSort_min flightPriceLe hf
    constructor
    · have hmem := hmin.1
      simp only [List.mem_filter, decide_eq_true_eq] at hmem
      exact ⟨hmem.1, hmem.2⟩
    · intro f2 hf2 hdep harr
      exact hmin.2 f2 (by simp [List.mem_filter, hf2, hdep, harr])
  · intro f hf
    cases e : queryFlights g dep arr with
    | nil => rw [plan_eq_noFlights e] at hf; cases hf
    | cons f0 fs =>
      rw [plan_eq_finish e] at hf
      cases ech : (selectHotel g arr f0.date flex).chosen with
      | none => rw [finishPlan_none ech] at hf; cases hf
      | some h0 =>
        rw [finishPlan_some ech] at hf
        simp only [PlanningResult.flight?] at hf
        unfold selectFlight
        rw [e]
        simpa using hf
  · rintro ⟨f2, hf2, hdep, harr⟩
    have hne : g.flights.filter (fun f => decide (f.dep = dep ∧ f.arr = arr)) ≠ [] := by
      intro hnil
      have hmem : f2 ∈ g.flights.filter (fun f => decide (f.dep = dep ∧ f.arr = arr)) := by
        simp [List.mem_filter, hf2, hdep, harr]
      rw [hnil] at hmem
      cases hmem
    obtain ⟨a, ha⟩ := head?_insertionSort_some_of_ne_nil flightPriceLe hne
    exact ⟨a, by unfold selectFlight queryFlights; exact ha⟩
  · intro hno
    have hfil : g.flights.filter (fun f => decide (f.dep = dep ∧ f.arr = arr)) = [] := by
      apply List.filter_eq_nil_iff.mpr
      intro a ha
      simp only [decide_eq_true_eq]
      rintro ⟨h1, h2⟩
      exact hno ⟨a, ha, h1, h2⟩
    have e : queryFlights g dep arr = [] := by
      unfold queryFlights
      rw [hfil]
      rfl
    rw [plan_eq_noFlights e]
    exact ⟨rfl, rfl, rfl, rfl⟩

/-- Witness for C2 on the demo catalog: the minimum-price matching flight,
and a route with no matching offer yielding `NoFlights`. -/
theorem claim_C2_cheapest_flight_witness :
    ((demoFlight ∈ demoCatalog.flights ∧ demoFlight.dep = "Chennai" ∧
        demoFlight.arr = "Delhi") ∧
      ∀ f2 ∈ demoCatalog.flights, f2.dep = "Chennai" → f2.arr = "Delhi" →
        demoFlight.price ≤ f2.price) ∧
    (plan_trip_enhanced demoCatalog "Chennai" "Mumbai" none 0 15000 2).status = .NoFlights :=
  ⟨(claim_C2_cheapest_flight demoCatalog "Chennai" "Delhi" none 0 15000 2).1 demoFlight
      (by decide),
    ((claim_C2_cheapest_flight demoCatalog "Chennai" "Mumbai" none 0 15000 2).2.2.2
      (by decide)).1⟩

/-- C4: whenever the result carries a selected flight and hotel, its total
cost is exactly flight price plus hotel price plus taxi price (0 without a
taxi), and the status is OK exactly when the total is at most the budget
(inclusive threshold) and OverBudget exactly when it exceeds it. -/
theorem claim_C4_total_cost_and_budget (g : Catalog) (dep arr : String) (input : Option Int)
    (today budget : Int) (flex : Nat) (f : FlightOffer) (h : HotelOffer) :
    (plan_trip_enhanced g dep arr input today budget flex).flight? = some f →
    (plan_trip_enhanced g dep arr input today budget flex).hotel? = some h →
    (plan_trip_enhanced g dep arr input today budget flex).total? =
      some (f.price + h.price +
        taxiPriceOf ((plan_trip_enhanced g dep arr input today budget flex).taxi?)) ∧
    ((plan_trip_enhanced g dep arr input today budget flex).status = .OK ↔
      f.price + h.price +
        taxiPriceOf ((plan_trip_enhanced g dep arr input today budget flex).taxi?) ≤ budget) ∧
    ((plan_trip_enhanced g dep arr input today budget flex).status = .OverBudget ↔
      budget < f.price + h.price +
        taxiPriceOf ((plan_trip_enhanced g dep arr input today budget flex).taxi?)) := by
  intro hf hh
  cases e : queryFlights g dep arr with
  | nil => rw [plan_eq_noFlights e] at hf; cases hf
  | cons f0 fs =>
    rw [plan_eq_finish e] at hf hh ⊢
    cases ech : (selectHotel g arr f0.date flex).chosen with
    | none => rw [finishPlan_none ech] at hf; cases hf
    | some h0 =>
      rw [finishPlan_some ech] at hf hh ⊢
      simp only [PlanningResult.flight?, Option.some.injEq] at hf
      simp only [PlanningResult.hotel?, Option.some.injEq] at hh
      subst hf
      subst hh
      simp only [PlanningResult.total?, PlanningResult.taxi?, PlanningResult.status]
      by_cases hb :
          f0.price + h0.price +
            taxiPriceOf (selectTaxi g (some h0) (selectHotel g arr f0.date flex).method) ≤ budget
      · rw [if_pos hb]
        refine ⟨trivial, ?_, ?_⟩
        · simp [hb]
        · constructor
          · intro hc; cases hc
          · intro hc; exact absurd hb (not_le.mpr hc)
      · rw [if_neg hb]
        refine ⟨trivial, ?_, ?_⟩
        · constructor
          · intro hc; cases hc
          · intro hc; exact absurd hc hb
        · simp [not_le.mp hb]

/-- Witness for C4 on the demo catalog: flight 6500 + hotel 3000 + taxi 900
= 10400 within the 15000 budget, status OK. -/
theorem claim_C4_total_cost_and_budget_witness :
    (plan_trip_enhanced demoCatalog "Chennai" "Delhi" none 0 15000 2).total? =
      some (demoFlight.price + demoHotel.price +
        taxiPriceOf ((plan_trip_enhanced demoCatalog "Chennai" "Delhi" none 0 15000 2).taxi?)) ∧
    ((plan_trip_enhanced demoCatalog "Chennai" "Delhi" none 0 15000 2).status = .OK ↔
      demoFlight.price + demoHotel.price +
        taxiPriceOf ((plan_trip_enhanced demoCatalog "Chennai" "Delhi" none 0 15000 2).taxi?) ≤
        15000) ∧
    ((plan_trip_enhanced demoCatalog "Chennai" "Delhi" none 0 15000 2).status = .OverBudget ↔
      15000 < demoFlight.price + demoHotel.price +
        taxiPriceOf ((plan_trip_enhanced demoCatalog "Chennai" "Delhi" none 0 15000 2).taxi?)) :=
  claim_C4_total_cost_and_budget demoCatalog "Chennai" "Delhi" none 0 15000 2 demoFlight
    demoHotel (by decide) (by decide)

/-- C5: every result with status OK or OverBudget carries a flight and a
hotel; and a result with status OK can carry no taxi (an empty taxi table
still plans and taxi absence leaves the status OK). -/
theorem claim_C5_ok_overbudget_selections (g : Catalog) (dep arr : String)
    (input : Option Int) (today budget : Int) (flex : Nat) :
    (((plan_trip_enhanced g dep arr input today budget flex).status = .OK ∨
        (plan_trip_enhanced g dep arr input today budget flex).status = .OverBudget) →
      (plan_trip_enhanced g dep arr input today budget flex).flight?.isSome ∧
      (plan_trip_enhanced g dep arr input today budget flex).hotel?.isSome) ∧
    ((plan_trip_enhanced noTaxiCatalog "Chennai" "Delhi" none 0 20 2).status = .OK ∧
      (plan_trip_enhanced noTaxiCatalog "Chennai" "Delhi" none 0 20 2).taxi? = none) := by
  constructor
  · intro hst
    cases e : queryFlights g dep arr with
    | nil =>
      rw [plan_eq_noFlights e] at hst
      rcases hst with hst | hst <;> cases hst
    | cons f0 fs =>
      rw [plan_eq_finish e] at hst ⊢
      cases ech : (selectHotel g arr f0.date flex).chosen with
      | none =>
        rw [finishPlan_none ech] at hst
        rcases hst with hst | hst <;> cases hst
      | some h0 =>
        rw [finishPlan_some ech]
        exact ⟨rfl, rfl⟩
  · exact ⟨by decide, by decide⟩

/-- Witness for C5 on the demo catalog, discharging the status hypothesis
with the OK outcome. -/
theorem claim_C5_ok_overbudget_selections_witness :
    ((plan_trip_enhanced demoCatalog "Chennai" "Delhi" none 0 15000 2).flight?.isSome ∧
      (plan_trip_enhanced demoCatalog "Chennai" "Delhi" none 0 15000 2).hotel?.isSome) ∧
    (plan_trip_enhanced noTaxiCatalog "Chennai" "Delhi" none 0 20 2).taxi? = none :=
  ⟨(claim_C5_ok_overbudget_selections demoCatalog "Chennai" "Delhi" none 0 15000 2).1
      (Or.inl (by decide)),
    (claim_C5_ok_overbudget_selections demoCatalog "Chennai" "Delhi" none 0 15000 2).2.2⟩

/-- C6 as stated is false: a planning call that finds a flight but no hotel
returns the `NoHotelAnywhere` dictionary, which carries no
`flight_candidates` key even though the considered candidate list was
non-empty. -/
theorem claim_C6_counterexample :
    (plan_trip_enhanced noHotelCatalog "Chennai" "Delhi" none 0 20000 2).status =
      .NoHotelAnywhere ∧
    (plan_trip_enhanced noHotelCatalog "Chennai" "Delhi" none 0 20000 2).candidates? = none ∧
    queryFlights noHotelCatalog "Chennai" "Delhi" ≠ [] := by
  refine ⟨by decide, by decide, by decide⟩

/-- C6 amended: only the OK and OverBudget results carry the full ordered
flight-candidate list; the NoFlights and NoHotelAnywhere results carry only
a status and a message, with no candidate list. -/
theorem claim_C6_candidates_by_status (g : Catalog) (dep arr : String) (input : Option Int)
    (today budget : Int) (flex : Nat) :
    (((plan_trip_enhanced g dep arr input today budget flex).status = .OK ∨
        (plan_trip_enhanced g dep arr input today budget flex).status = .OverBudget) →
      (plan_trip_enhanced g dep arr input today budget flex).candidates? =
        some (queryFlights g dep arr)) ∧
    (((plan_trip_enhanced g dep arr input today budget flex).status = .NoFlights ∨
        (plan_trip_enhanced g dep arr input today budget flex).status = .NoHotelAnywhere) →
      (plan_trip_enhanced g dep arr input today budget flex).candidates? = none) := by
  constructor
  · intro hst
    cases e : queryFlights g dep arr with
    | nil =>
      rw [plan_eq_noFlights e] at hst
      rcases hst with hst | hst <;> cases hst
    | cons f0 fs =>
      rw [plan_eq_finish e] at hst ⊢
      cases ech : (selectHotel g arr f0.date flex).chosen with
      | none =>
        rw [finishPlan_none ech] at hst
        rcases hst with hst | hst <;> cases hst
      | some h0 =>
        rw [finishPlan_some ech]
        rfl
  · intro hst
    cases e : queryFlights g dep arr with
    | nil => rw [plan_eq_noFlights e]; rfl
    | cons f0 fs =>
      rw [plan_eq_finish e] at hst ⊢
      cases ech : (selectHotel g arr f0.date flex).chosen with
      | none => rw [finishPlan_none ech]; rfl
      | some h0 =>
        rw [finishPlan_some ech] at hst
        simp only [PlanningResult.status] at hst
        rcases hst with hst | hst <;>
          · by_cases hb :
                f0.price + h0.price +
                  taxiPriceOf (selectTaxi g (some h0) (selectHotel g arr f0.date flex).method) ≤
                    budget <;>
              simp [hb] at hst

/-- Witness for C6 amended: an OK result carrying its ordered candidate
list, and a NoFlights result carrying none. -/
theorem claim_C6_candidates_by_status_witness :
    (plan_trip_enhanced demoCatalog "Chennai" "Delhi" none 0 15000 2).candidates? =
      some (queryFlights demoCatalog "Chennai" "Delhi") ∧
    (plan_trip_enhanced demoCatalog "Chennai" "Mumbai" none 0 15000 2).candidates? = none :=
  ⟨(claim_C6_candidates_by_status demoCatalog "Chennai" "Delhi" none 0 15000 2).1
      (Or.inl (by decide)),
    (claim_C6_candidates_by_status demoCatalog "Chennai" "Mumbai" none 0 15000 2).2
      (Or.inl (by decide))⟩

/-- C3: for every city queried during hotel matching, a hotel row is
eligible (is in the in-window candidate list) iff it lies in the city and
its available-from date `d` satisfies `flightDate ≤ d ≤ flightDate + flex`
(both bounds inclusive) or `d ≤ flightDate`; the hotel selected from a
cascade-city query is an eligible row of minimal rank (price ascending,
then rating descending); and — under the data-model invariant that catalog
hotel identifiers are pairwise distinct, so the identifier dedup pass drops
nothing — the hotel selected by the arrival-city branch is likewise an
eligible row of minimal rank. -/
theorem claim_C3_window_and_ranking (g : Catalog) (fd : Int) (flex : Nat) (city : String) :
    (∀ h : HotelOffer, h ∈ cityWindow g fd flex city ↔
        h ∈ g.hotels ∧ h.location = city ∧
          ((fd ≤ h.availDate ∧ h.availDate ≤ fd + (flex : Int)) ∨ h.availDate ≤ fd)) ∧
    (∀ h : HotelOffer, (hotelRankSort (cityWindow g fd flex city)).head? = some h →
        h ∈ cityWindow g fd flex city ∧
        ∀ h2 ∈ cityWindow g fd flex city, hotelRankLe h h2) ∧
    ((g.hotels.map (·.uri)).Nodup →
      ∀ h : HotelOffer,
        (hotelRankSort (dedupByUri [] (cityWindow g fd flex city))).head? = some h →
          selectHotel g city fd flex = ⟨some h, some .exactCityWithinWindow, []⟩ ∧
          h ∈ cityWindow g fd flex city ∧
          ∀ h2 ∈ cityWindow g fd flex city, hotelRankLe h h2) := by
  refine ⟨fun h => mem_cityWindow, ?_, ?_⟩
  · intro h hh
    unfold hotelRankSort at hh
    exact head?_insertionSort_min hotelRankLe hh
  · intro hU h hh
    have hded : dedupByUri [] (cityWindow g fd flex city) = cityWindow g fd flex city :=
      dedupByUri_eq_self [] _ (fun x _ => List.not_mem_nil x.uri) (cityWindow_uri_nodup hU)
    refine ⟨selectHotel_exact hh, ?_⟩
    rw [hded] at hh
    unfold hotelRankSort at hh
    exact head?_insertionSort_min hotelRankLe hh

/-- Witness for C3 on the demo catalog (flight day 50, flexible window 2):
the Delhi hotel available on day 50 is selected by the arrival-city branch
and is rank-minimal among the eligible rows. -/
theorem claim_C3_window_and_ranking_witness :
    (selectHotel demoCatalog "Delhi" 50 2 =
        ⟨some demoHotel, some .exactCityWithinWindow, []⟩ ∧
      demoHotel ∈ cityWindow demoCatalog 50 2 "Delhi" ∧
      ∀ h2 ∈ cityWindow demoCatalog 50 2 "Delhi", hotelRankLe demoHotel h2) ∧
    (demoHotel ∈ cityWindow demoCatalog 50 2 "Delhi" ↔
      demoHotel ∈ demoCatalog.hotels ∧ demoHotel.location = "Delhi" ∧
        ((50 ≤ demoHotel.availDate ∧ demoHotel.availDate ≤ 50 + ((2 : Nat) : Int)) ∨
          demoHotel.availDate ≤ 50)) :=
  ⟨(claim_C3_window_and_ranking demoCatalog 50 2 "Delhi").2.2 (by decide) demoHotel (by decide),
    (claim_C3_window_and_ranking demoCatalog 50 2 "Delhi").1 demoHotel⟩

/-- C7: the ranked candidate list of the arrival-city query is
identifier-deduplicated, unconditionally — in particular a hotel row
satisfying both the in-window and the already-available condition appears
only once; a cascade-city ranked list has no identifier-level dedup pass,
but under the data-model invariant that catalog hotel identifiers are
pairwise distinct it carries no duplicate identifier either. -/
theorem claim_C7_dedup_ranked_lists (g : Catalog) (fd : Int) (flex : Nat) (city : String) :
    ((hotelRankSort (dedupByUri [] (cityWindow g fd flex city))).map (·.uri)).Nodup ∧
    ((g.hotels.map (·.uri)).Nodup →
      ((hotelRankSort (cityWindow g fd flex city)).map (·.uri)).Nodup) := by
  constructor
  · have hperm := (List.perm_insertionSort hotelRankLe
      (dedupByUri [] (cityWindow g fd flex city))).map (fun h : HotelOffer => h.uri)
    unfold hotelRankSort
    rw [hperm.nodup_iff]
    exact dedupByUri_uri_nodup [] _
  · intro hU
    have hperm := (List.perm_insertionSort hotelRankLe
      (cityWindow g fd flex city)).map (fun h : HotelOffer => h.uri)
    unfold hotelRankSort
    rw [hperm.nodup_iff]
    exact cityWindow_uri_nodup hU

/-- Witness for C7: a hotel available exactly on the flight day (both
window conditions hold) appears once in the arrival-city ranked list, and a
cascade-city ranked list of the same catalog carries distinct identifiers. -/
theorem claim_C7_dedup_ranked_lists_witness :
    ((hotelRankSort (dedupByUri [] (cityWindow demoCatalog 50 2 "Delhi"))).map (·.uri)).Nodup ∧
    ((hotelRankSort (cityWindow demoCatalog 50 2 "Gurugram")).map (·.uri)).Nodup :=
  ⟨(claim_C7_dedup_ranked_lists demoCatalog 50 2 "Delhi").1,
    (claim_C7_dedup_ranked_lists demoCatalog 50 2 "Gurugram").2 (by decide)⟩

/-- C1 as stated is false: with no Delhi hotel, Gurugram sets a provisional
next-available pick (its only hotel opens on day 10, past the window) and
Ghaziabad — a later city, in the region tier — has an in-window hotel, yet
the provisional pick stands: after a tier ends with any pick set the region
tier is never consulted, so an in-window match there does not replace the
provisional pick. -/
theorem claim_C1_counterexample :
    (selectHotel regionSkipCatalog "Delhi" 0 2).chosen = some hotelHG ∧
    (selectHotel regionSkipCatalog "Delhi" 0 2).method =
      some (.nearbyCityNextAvail "Gurugram") ∧
    (selectHotel regionSkipCatalog "Delhi" 0 2).tried = ["Gurugram", "Noida"] ∧
    hotelHZ ∈ cityWindow regionSkipCatalog 0 2 "Ghaziabad" ∧
    "Ghaziabad" ∈ nearby_cities_region ∧
    hotelHG ≠ hotelHZ := by
  refine ⟨by decide, by decide, by decide, by decide, by decide, by decide⟩

/-- C1 amended: a provisional next-available pick does not stop iteration
within its own tier — every remaining city of the tier is still processed,
a later city's in-window match overrides the pick, and a later city's
next-available row never overrides it — but a tier that ends with any pick
set (provisional included) stops the whole cascade, so the region tier is
not consulted. -/
theorem claim_C1_cascade_provisional (g : Catalog) (fd : Int) (flex : Nat) :
    (∀ (h : HotelOffer) (m : HotelMethod) (tried cs : List String),
      (∀ c ∈ cs, cityWindow g fd flex c = []) →
      cascadeCities g fd flex ⟨some h, some m, tried⟩ cs = ⟨some h, some m, tried ++ cs⟩) ∧
    (∀ (cs₁ : List String) (c : String) (cs₂ : List String) (h : HotelOffer)
        (m : HotelMethod) (tried : List String) (hw : HotelOffer),
      (∀ c2 ∈ cs₁, cityWindow g fd flex c2 = []) →
      (hotelRankSort (cityWindow g fd flex c)).head? = some hw →
      cascadeCities g fd flex ⟨some h, some m, tried⟩ (cs₁ ++ c :: cs₂) =
        ⟨some hw, some (.nearbyCity c), (tried ++ cs₁) ++ [c]⟩) ∧
    (∀ x : HotelOffer,
      (cascadeCities g fd flex ⟨none, none, []⟩ nearby_cities_immediate).chosen = some x →
      runCascade g fd flex =
        cascadeCities g fd flex ⟨none, none, []⟩ nearby_cities_immediate) := by
  refine ⟨?_, ?_, ?_⟩
  · intro h m tried cs hempty
    exact cascadeCities_keep_provisional g fd flex cs h m tried hempty
  · intro cs₁ c cs₂ h m tried hw hempty hc
    exact cascadeCities_override g fd flex cs₁ c cs₂ h m tried hw hempty hc
  · intro x hx
    simp only [runCascade]
    rw [hx]

/-- Witness for C1 amended, on a catalog whose only hotel is an in-window
Gurugram one: a provisional pick survives an empty later city, an in-window
match overrides an incoming provisional pick, and an immediate-tier pick
makes the whole cascade return the immediate-tier outcome. -/
theorem claim_C1_cascade_provisional_witness :
    cascadeCities c9Catalog 0 2
        ⟨some hotelHG, some (.nearbyCityNextAvail "Gurugram"), ["Gurugram"]⟩ ["Noida"] =
      ⟨some hotelHG, some (.nearbyCityNextAvail "Gurugram"), ["Gurugram"] ++ ["Noida"]⟩ ∧
    cascadeCities c9Catalog 0 2
        ⟨some hotelHZ, some (.nearbyCityNextAvail "Ghaziabad"), []⟩ ([] ++ "Gurugram" :: ["Noida"]) =
      ⟨some hotelG9, some (.nearbyCity "Gurugram"), (([] : List String) ++ []) ++ ["Gurugram"]⟩ ∧
    runCascade c9Catalog 0 2 =
      cascadeCities c9Catalog 0 2 ⟨none, none, []⟩ nearby_cities_immediate :=
  ⟨(claim_C1_cascade_provisional c9Catalog 0 2).1 hotelHG (.nearbyCityNextAvail "Gurugram")
      ["Gurugram"] ["Noida"] (by decide),
    (claim_C1_cascade_provisional c9Catalog 0 2).2.1 [] "Gurugram" ["Noida"] hotelHZ
      (.nearbyCityNextAvail "Ghaziabad") [] hotelG9 (by decide) (by decide),
    (claim_C1_cascade_provisional c9Catalog 0 2).2.2 hotelG9 (by decide)⟩

/-- C9 as stated is false: with no in-window Delhi hotel but an in-window
Gurugram hotel, the cascade consults only Gurugram — not all four fallback
cities. -/
theorem claim_C9_counterexample :
    cityWindow c9Catalog 0 2 "Delhi" = [] ∧
    (selectHotel c9Catalog "Delhi" 0 2).tried = ["Gurugram"] ∧
    ["Gurugram"] ≠ nearby_cities_immediate ++ nearby_cities_region := by
  refine ⟨by decide, by decide, by decide⟩

/-- C9 amended: the cascade tiers are the fixed constants
`["Gurugram", "Noida"]` then `["Ghaziabad", "Faridabad"]`; whenever the
arrival city has no in-window hotel, the consulted cities form an initial
segment of these four in this order (all four only when no stop occurs),
and the consulted sequence is independent of the arrival city. -/
theorem claim_C9_cascade_constants (g : Catalog) (fd : Int) (flex : Nat) (a1 a2 : String) :
    (nearby_cities_immediate = ["Gurugram", "Noida"] ∧
      nearby_cities_region = ["Ghaziabad", "Faridabad"]) ∧
    (cityWindow g fd flex a1 = [] →
      ∃ rest2, (selectHotel g a1 fd flex).tried ++ rest2 =
        ["Gurugram", "Noida", "Ghaziabad", "Faridabad"]) ∧
    (cityWindow g fd flex a1 = [] → cityWindow g fd flex a2 = [] →
      (selectHotel g a1 fd flex).tried = (selectHotel g a2 fd flex).tried) := by
  refine ⟨⟨rfl, rfl⟩, ?_, ?_⟩
  · intro he
    rw [selectHotel_cascade (exactHead_none_of_cityWindow_nil he)]
    obtain ⟨r2, hr⟩ := runCascade_tried g fd flex
    exact ⟨r2, hr⟩
  · intro h1 h2
    rw [selectHotel_cascade (exactHead_none_of_cityWindow_nil h1),
      selectHotel_cascade (exactHead_none_of_cityWindow_nil h2)]

/-- Witness for C9 amended: on a catalog with no Delhi or Mumbai hotel the
consulted-city log is an initial segment of the four constants and is the
same for both arrival cities. -/
theorem claim_C9_cascade_constants_witness :
    (∃ rest2, (selectHotel c9Catalog "Delhi" 0 2).tried ++ rest2 =
      ["Gurugram", "Noida", "Ghaziabad", "Faridabad"]) ∧
    (selectHotel c9Catalog "Delhi" 0 2).tried = (selectHotel c9Catalog "Mumbai" 0 2).tried :=
  ⟨(claim_C9_cascade_constants c9Catalog 0 2 "Delhi" "Mumbai").2.1 (by decide),
    (claim_C9_cascade_constants c9Catalog 0 2 "Delhi" "Mumbai").2.2 (by decide) (by decide)⟩

/-- C10 as stated is false: when the arrival city is itself one of the four
cascade constants (here Gurugram), its hotel opening after the flexible
window IS selected, as that city's next-available pick. -/
theorem claim_C10_counterexample :
    (plan_trip_enhanced gurugramArrivalCatalog "Chennai" "Gurugram" none 0 20000 2).hotel? =
      some lateGurugramHotel ∧
    lateGurugramHotel.location = "Gurugram" ∧
    (0 : Int) + ((2 : Nat) : Int) < lateGurugramHotel.availDate := by
  refine ⟨by decide, by decide, by decide⟩

/-- C10 amended: the arrival-city next-available accumulator has no effect:
when the arrival city has no in-window hotel, any selected hotel is located
in one of the four cascade constants — in particular not in the arrival
city unless the arrival city is itself one of the constants — and when the
cascade also fails the status is NoHotelAnywhere even though an
arrival-city hotel exists at a later date. -/
theorem claim_C10_no_exact_next_available (g : Catalog) (dep arr : String)
    (input : Option Int) (today budget : Int) (flex : Nat) (f : FlightOffer)
    (fs : List FlightOffer) :
    (queryFlights g dep arr = f :: fs →
      cityWindow g f.date flex arr = [] →
      ∀ h : HotelOffer,
        (plan_trip_enhanced g dep arr input today budget flex).hotel? = some h →
          h.location ∈ nearby_cities_immediate ++ nearby_cities_region ∧
          (arr ∉ nearby_cities_immediate ++ nearby_cities_region → h.location ≠ arr)) ∧
    ((plan_trip_enhanced lateDelhiCatalog "Chennai" "Delhi" none 0 20000 2).status =
        .NoHotelAnywhere ∧
      lateDelhiHotel ∈ lateDelhiCatalog.hotels ∧ lateDelhiHotel.location = "Delhi" ∧
      (0 : Int) + ((2 : Nat) : Int) < lateDelhiHotel.availDate) := by
  constructor
  · intro e he h hh
    rw [plan_eq_finish e] at hh
    rw [selectHotel_cascade (exactHead_none_of_cityWindow_nil he)] at hh
    cases ech : (runCascade g f.date flex).chosen with
    | none => rw [finishPlan_none ech] at hh; cases hh
    | some h0 =>
      rw [finishPlan_some ech] at hh
      simp only [PlanningResult.hotel?, Option.some.injEq] at hh
      subst hh
      obtain ⟨c, hc, hq⟩ := runCascade_chosen_src ech
      have hloc : h0.location = c := (mem_queryHotels.mp hq).2
      have hmem4 : h0.location ∈ nearby_cities_immediate ++ nearby_cities_region := hloc ▸ hc
      exact ⟨hmem4, fun harr heq => harr (heq ▸ hmem4)⟩
  · refine ⟨by decide, by decide, by decide, by decide⟩

/-- Witness for C10 amended: the selected hotel of the Gurugram-arrival run
is located in a cascade-constant city. -/
theorem claim_C10_no_exact_next_available_witness :
    lateGurugramHotel.location ∈ nearby_cities_immediate ++ nearby_cities_region ∧
    ("Gurugram" ∉ nearby_cities_immediate ++ nearby_cities_region →
      lateGurugramHotel.location ≠ "Gurugram") :=
  (claim_C10_no_exact_next_available gurugramArrivalCatalog "Chennai" "Gurugram" none 0 20000 2
      ⟨"F1", "Chennai", "Gurugram", 6500, "IndiGo", 0⟩ []).1 (by decide) (by decide)
      lateGurugramHotel (by decide)
